import Mathlib

/-!
Verification of the `okay` access-gating library (package okay, okay.go).

An `OK` value bundles three checks: `Valid` (liveness), `Verify`
(authentication against a credential context) and `Allows` (authorization
for a resource).  We embed the package shallowly:

* Go errors are modelled by `GoError`; a `nil` error is `none` and the
  package-level sentinel `Invalid = errors.New(..)` is `some GoError.invalid`.
* The `OK` interface is modelled extensionally as a record of the three
  operations; credential contexts and resources are opaque type parameters
  (Go `context.Context` and `interface{}` are opaque to the package).
* The combinators `Validate`, `Verify`, `Allow` build new records exactly as
  the Go wrapper types `validOK`, `verifyOK`, `allowOK` do; Go struct
  embedding makes every non-overridden method delegate to the inner value,
  which the record update mirrors.
* Mutable state (the cancellation cell of `WithCancel`) and the clock read
  by `WithDeadline` / `WithTimeout` are passed explicitly: a grant's
  `Valid()` at an instant where the cell holds `c` (resp. the clock reads
  `now`) is the `valid` field of `WithCancelAt .. c` (resp.
  `WithDeadlineAt .. now`).
-/

namespace Okay

/-- A Go `error` value.  `GoError.invalid` is the package sentinel
`Invalid = errors.New("OK not valid")`; `GoError.other n` stands for any
other distinct error value.  A nullable Go `error` is `Option GoError`. -/
inductive GoError where
  | invalid : GoError
  | other : Nat → GoError
deriving DecidableEq, Repr

/-- The `OK` interface of okay.go, modelled extensionally: `valid` is the
result of `Valid()` at the instant under consideration, `verify ctx` the
result of `Verify(ctx)`, `allows r` the result of `Allows(r)`. -/
structure OK (Ctx Res : Type) where
  valid : Bool
  verify : Ctx → Bool × Option GoError
  allows : Res → Bool × Option GoError

/-- `New()` returns `nullOK{}`: always valid, verifies nobody, allows
nothing (okay.go lines 51-53 and 81-85). -/
def New (Ctx Res : Type) : OK Ctx Res :=
  { valid := true
    verify := fun _ => (false, none)
    allows := fun _ => (false, none) }

/-- `check(ctx, resource, ok)` of okay.go lines 55-63: invalid grants fail
with the sentinel; then `Verify` gates `Allows`. -/
def check (ctx : Ctx) (resource : Res) (ok : OK Ctx Res) : Bool × Option GoError :=
  if !ok.valid then
    (false, some GoError.invalid)
  else
    match ok.verify ctx with
    | (k, err) => if !k then (false, err) else ok.allows resource

/-- The loop body of `Check` (okay.go lines 67-79) with the error
accumulator `e` explicit.  The update guard transcribes the source
condition `err != nil && (e != nil || e == Invalid)` verbatim. -/
def checkLoop (ctx : Ctx) (resource : Res) :
    List (OK Ctx Res) → Option GoError → Bool × Option GoError
  | [], e => (false, e)
  | g :: gs, e =>
    match check ctx resource g with
    | (v, err) =>
      if v then (true, none)
      else
        checkLoop ctx resource gs
          (if err ≠ none ∧ (e ≠ none ∨ e = some GoError.invalid) then err else e)

/-- `Check(ctx, resource, ok...)` of okay.go lines 67-79: the accumulator
starts as the zero value `nil`. -/
def Check (ctx : Ctx) (resource : Res) (oks : List (OK Ctx Res)) : Bool × Option GoError :=
  checkLoop ctx resource oks none

/-- `Validate(ok, valid)` (okay.go lines 100-105) wraps `ok` in a `validOK`
whose `Valid()` is `v() && ok.Valid()` (line 92-94); `p` is the value the
attached predicate returns at the instant under consideration.  Struct
embedding delegates `Verify` and `Allows` to the inner grant. -/
def Validate (ok : OK Ctx Res) (p : Bool) : OK Ctx Res :=
  { valid := p && ok.valid
    verify := ok.verify
    allows := ok.allows }

/-- `Verify(ok, verify)` (okay.go lines 133-138) wraps `ok` in a `verifyOK`
whose `Verify` is okay.go lines 112-124; `Valid` and `Allows` delegate. -/
def Verify (ok : OK Ctx Res) (f : Ctx → Bool × Option GoError) : OK Ctx Res :=
  { valid := ok.valid
    allows := ok.allows
    verify := fun ctx =>
      match f ctx with
      | (k, err) =>
        if k then (true, none)
        else
          match err with
          | some e => if (ok.verify ctx).1 then (true, none) else (false, some e)
          | none => ok.verify ctx }

/-- `Allow(ok, allow)` (okay.go lines 166-171) wraps `ok` in an `allowOK`
whose `Allows` is okay.go lines 145-157; `Valid` and `Verify` delegate. -/
def Allow (ok : OK Ctx Res) (a : Res → Bool × Option GoError) : OK Ctx Res :=
  { valid := ok.valid
    verify := ok.verify
    allows := fun i =>
      match a i with
      | (k, err) =>
        if k then (true, none)
        else
          match err with
          | some e => if (ok.allows i).1 then (true, none) else (false, some e)
          | none => ok.allows i }

/-- The shared cell `var c int32` of `WithCancel` (okay.go line 179) starts
at the int32 zero value. -/
def cancelCellInit : Nat := 0

/-- The returned `CancelFunc` body `atomic.StoreInt32(&c, 1)` (okay.go line
180) as a transition on the cell contents. -/
def cancelFunc : Nat → Nat := fun _ => 1

/-- The grant returned by `WithCancel(ok)` (okay.go lines 178-181), observed
at an instant where the shared cell holds `c`: its attached predicate reads
`atomic.LoadInt32(&c) == 0`. -/
def WithCancelAt (ok : OK Ctx Res) (c : Nat) : OK Ctx Res :=
  Validate ok (c == 0)

/-- The grant returned by `WithDeadline(ok, deadline)` (okay.go lines
192-196), observed at an instant where `timeFunc()` reads `now`; Go
`time.Time` is modelled as `Int` (nanoseconds), `Before` as `<`. -/
def WithDeadlineAt (ok : OK Ctx Res) (deadline : Int) (now : Int) : OK Ctx Res :=
  Validate ok (decide (now < deadline))

/-- The grant returned by `WithTimeout(ok, timeout)` (okay.go lines
199-204) when `timeFunc()` read `t0` at construction — so
`exp = t0 + timeout` — observed at an instant where `timeFunc()` reads
`now`. -/
def WithTimeoutAt (ok : OK Ctx Res) (timeout : Int) (t0 : Int) (now : Int) : OK Ctx Res :=
  Validate ok (decide (now < t0 + timeout))

/-- Repeated application of `Validate`: `stackValidate ok [p1, .., pn]` is
`Validate (.. (Validate ok pn) ..) p1`, the grant built by n stacked
validity combinators whose predicates currently return `p1, .., pn`. -/
def stackValidate (ok : OK Ctx Res) : List Bool → OK Ctx Res
  | [] => ok
  | p :: ps => Validate (stackValidate ok ps) p

/-- A grant fully succeeds for `(ctx, resource)` when it is valid, its
`Verify` reports true and its `Allows` reports true. -/
def fullSuccess (ctx : Ctx) (resource : Res) (g : OK Ctx Res) : Prop :=
  g.valid = true ∧ (g.verify ctx).1 = true ∧ (g.allows resource).1 = true

/-- `check` as a cascade of its three steps. -/
theorem check_eq (ctx : Ctx) (resource : Res) (g : OK Ctx Res) :
    check ctx resource g =
      if g.valid = false then (false, some GoError.invalid)
      else if (g.verify ctx).1 = false then (false, (g.verify ctx).2)
      else g.allows resource := by
  rcases hv : g.verify ctx with ⟨k, e⟩
  cases hg : g.valid <;> cases k <;> simp [check, hv, hg]

/-- `check` reports true exactly on a full success. -/
theorem check_fst_true_iff (ctx : Ctx) (resource : Res) (g : OK Ctx Res) :
    (check ctx resource g).1 = true ↔ fullSuccess ctx resource g := by
  rw [check_eq]
  cases hg : g.valid <;> cases hk : (g.verify ctx).1 <;>
    simp [fullSuccess, hg, hk]

/-- The loop reports true exactly when some grant in the remaining list
passes `check`, whatever the accumulator holds. -/
theorem checkLoop_fst_true_iff (ctx : Ctx) (resource : Res)
    (gs : List (OK Ctx Res)) :
    ∀ e, (checkLoop ctx resource gs e).1 = true ↔
      ∃ g ∈ gs, (check ctx resource g).1 = true := by
  induction gs with
  | nil => intro e; simp [checkLoop]
  | cons g gs ih =>
    intro e
    rcases hc : check ctx resource g with ⟨v, err⟩
    cases v
    · simp [checkLoop, hc, ih]
    · constructor
      · intro _
        exact ⟨g, List.mem_cons_self g gs, by rw [hc]⟩
      · intro _
        simp [checkLoop, hc]

/-- When the loop reports true it returns the literal `(true, nil)`. -/
theorem checkLoop_fst_true (ctx : Ctx) (resource : Res)
    (gs : List (OK Ctx Res)) :
    ∀ e, (checkLoop ctx resource gs e).1 = true →
      checkLoop ctx resource gs e = (true, none) := by
  induction gs with
  | nil => intro e h; simp [checkLoop] at h
  | cons g gs ih =>
    intro e h
    rcases hc : check ctx resource g with ⟨v, err⟩
    cases v
    · simp only [checkLoop, hc] at h ⊢
      exact ih _ (by simpa using h)
    · simp [checkLoop, hc]

/-- Starting from a nil accumulator, the guard
`err != nil && (e != nil || e == Invalid)` never fires, so the error
component of the loop stays nil. -/
theorem checkLoop_snd_none (ctx : Ctx) (resource : Res)
    (gs : List (OK Ctx Res)) :
    (checkLoop ctx resource gs none).2 = none := by
  induction gs with
  | nil => simp [checkLoop]
  | cons g gs ih =>
    rcases hc : check ctx resource g with ⟨v, err⟩
    cases v <;> simp [checkLoop, hc, ih]

/-- Iterating the cancel transition at least once leaves the cell at 1. -/
theorem cancelFunc_iterate (n : Nat) (s : Nat) : cancelFunc^[n + 1] s = 1 := by
  induction n generalizing s with
  | zero => rfl
  | succ m ih => exact ih (cancelFunc s)

/-- C4: the base grant returned by `New()` always reports `Valid() = true`,
and both `Verify` and `Allows` return `(false, nil)` on every input; as
total functions over opaque argument types they return an error on no
input and cannot panic. -/
theorem new_denies_all (Ctx Res : Type) :
    (New Ctx Res).valid = true ∧
    (∀ ctx : Ctx, (New Ctx Res).verify ctx = (false, none)) ∧
    (∀ r : Res, (New Ctx Res).allows r = (false, none)) :=
  ⟨rfl, fun _ => rfl, fun _ => rfl⟩

/-- C8: `Check` invoked with zero grants returns `(false, nil)` for every
credential context and resource. -/
theorem check_empty (Ctx Res : Type) (ctx : Ctx) (resource : Res) :
    Check ctx resource ([] : List (OK Ctx Res)) = (false, none) := rfl

/-- C1 (code bug): with G1 invalid and G2's `Verify` failing with a
non-nil error, `Check` over [G1, G2] returns `(false, nil)`, dropping G2's
error instead of reporting it: the accumulator guard
`err != nil && (e != nil || e == Invalid)` at okay.go line 74 can never
hold (`e` starts as nil and `e == Invalid` implies `e != nil`), so `e` is
never assigned and — second conjunct — the error component of `Check` is
nil on every input. -/
theorem check_error_always_nil :
    Check (0 : Nat) (0 : Nat)
      [OK.mk false (fun _ => (false, none)) (fun _ => (false, none)),
       OK.mk true (fun _ => (false, some (GoError.other 1))) (fun _ => (false, none))]
      = (false, none) ∧
    ∀ (Ctx Res : Type) (ctx : Ctx) (resource : Res) (gs : List (OK Ctx Res)),
      (Check ctx resource gs).2 = none :=
  ⟨by decide, fun _ _ ctx resource gs => checkLoop_snd_none ctx resource gs⟩

/-- C3: `Check` returns `(true, nil)` exactly when some supplied grant
fully succeeds (valid, verifies, allows); a fully succeeding head grant
short-circuits — the result is `(true, nil)` whatever the remaining grants
are; and per grant the three steps cascade: an invalid grant yields the
sentinel without consulting `Verify` or `Allows`, a valid grant whose
`Verify` reports false yields `Verify`'s error without consulting
`Allows`, and a valid, verified grant yields exactly its `Allows`
result. -/
theorem check_or_semantics (Ctx Res : Type) (ctx : Ctx) (resource : Res)
    (gs : List (OK Ctx Res)) :
    (Check ctx resource gs = (true, none) ↔
      ∃ g ∈ gs, fullSuccess ctx resource g) ∧
    (∀ (g : OK Ctx Res) (rest : List (OK Ctx Res)),
      fullSuccess ctx resource g →
      Check ctx resource (g :: rest) = (true, none)) ∧
    (∀ g : OK Ctx Res, g.valid = false →
      check ctx resource g = (false, some GoError.invalid)) ∧
    (∀ g : OK Ctx Res, g.valid = true → (g.verify ctx).1 = false →
      check ctx resource g = (false, (g.verify ctx).2)) ∧
    (∀ g : OK Ctx Res, g.valid = true → (g.verify ctx).1 = true →
      check ctx resource g = g.allows resource) := by
  refine ⟨⟨?_, ?_⟩, ?_, ?_, ?_, ?_⟩
  · intro h
    have h1 : (checkLoop ctx resource gs none).1 = true := by
      unfold Check at h; rw [h]
    rcases (checkLoop_fst_true_iff ctx resource gs none).mp h1 with ⟨g, hg, hgt⟩
    exact ⟨g, hg, (check_fst_true_iff ctx resource g).mp hgt⟩
  · rintro ⟨g, hg, hfs⟩
    exact checkLoop_fst_true ctx resource gs none
      ((checkLoop_fst_true_iff ctx resource gs none).mpr
        ⟨g, hg, (check_fst_true_iff ctx resource g).mpr hfs⟩)
  · intro g rest hfs
    have hc : (check ctx resource g).1 = true :=
      (check_fst_true_iff ctx resource g).mpr hfs
    rcases h : check ctx resource g with ⟨v, err⟩
    rw [h] at hc
    simp only [] at hc
    simp [Check, checkLoop, h, hc]
  · intro g hg
    simp [check_eq, hg]
  · intro g hg hk
    simp [check_eq, hg, hk]
  · intro g hg hk
    simp [check_eq, hg, hk]

/-- Witness for check_or_semantics: a concrete fully succeeding grant at
the head short-circuits past a concrete invalid grant. -/
theorem check_or_semantics_witness :
    Check (0 : Nat) (0 : Nat)
      [OK.mk true (fun _ => (true, none)) (fun _ => (true, none)),
       OK.mk false (fun _ => (false, none)) (fun _ => (false, none))]
      = (true, none) :=
  (check_or_semantics Nat Nat 0 0 []).2.1
    (OK.mk true (fun _ => (true, none)) (fun _ => (true, none)))
    [OK.mk false (fun _ => (false, none)) (fun _ => (false, none))]
    ⟨rfl, rfl, rfl⟩

/-- C2: layering cases of the `Verify` combinator, and analogously the
`Allow` combinator, for inner grant `g` and attached function: (1) if the
attached function reports true, the result is `(true, nil)`; (2) if it
reports false with a non-nil error and the inner operation reports true,
the result is `(true, nil)`; (3) if it reports false with a non-nil error
and the inner operation reports false, the result is `(false, err)` with
the attached function's error, not the inner grant's; (4) if it reports
`(false, nil)`, the result is exactly the inner grant's, boolean and error
unchanged. -/
theorem verify_allow_layering (Ctx Res : Type) (g : OK Ctx Res)
    (f : Ctx → Bool × Option GoError) (a : Res → Bool × Option GoError)
    (ctx : Ctx) (resource : Res) :
    ((f ctx).1 = true → (Verify g f).verify ctx = (true, none)) ∧
    ((f ctx).1 = false → (f ctx).2 ≠ none → (g.verify ctx).1 = true →
      (Verify g f).verify ctx = (true, none)) ∧
    ((f ctx).1 = false → (f ctx).2 ≠ none → (g.verify ctx).1 = false →
      (Verify g f).verify ctx = (false, (f ctx).2)) ∧
    (f ctx = (false, none) → (Verify g f).verify ctx = g.verify ctx) ∧
    ((a resource).1 = true → (Allow g a).allows resource = (true, none)) ∧
    ((a resource).1 = false → (a resource).2 ≠ none →
      (g.allows resource).1 = true →
      (Allow g a).allows resource = (true, none)) ∧
    ((a resource).1 = false → (a resource).2 ≠ none →
      (g.allows resource).1 = false →
      (Allow g a).allows resource = (false, (a resource).2)) ∧
    (a resource = (false, none) → (Allow g a).allows resource = g.allows resource) := by
  rcases hf : f ctx with ⟨fk, fe⟩
  rcases ha : a resource with ⟨ak, ae⟩
  refine ⟨?_, ?_, ?_, ?_, ?_, ?_, ?_, ?_⟩
  · intro h
    simp at h
    simp [Okay.Verify, hf, h]
  · intro h1 h2 h3
    simp at h1 h2
    cases fe with
    | none => exact absurd rfl h2
    | some e => simp [Okay.Verify, hf, h1, h3]
  · intro h1 h2 h3
    simp at h1 h2
    cases fe with
    | none => exact absurd rfl h2
    | some e => simp [Okay.Verify, hf, h1, h3]
  · intro h
    simp [Okay.Verify, hf, h]
  · intro h
    simp at h
    simp [Okay.Allow, ha, h]
  · intro h1 h2 h3
    simp at h1 h2
    cases ae with
    | none => exact absurd rfl h2
    | some e => simp [Okay.Allow, ha, h1, h3]
  · intro h1 h2 h3
    simp at h1 h2
    cases ae with
    | none => exact absurd rfl h2
    | some e => simp [Okay.Allow, ha, h1, h3]
  · intro h
    simp [Okay.Allow, ha, h]

/-- Witness for verify_allow_layering: a concrete attached function that
reports a non-nil error over a concrete inner grant that denies — the
wrapper surfaces the attached function's error. -/
theorem verify_allow_layering_witness :
    (Verify (OK.mk true (fun _ => (false, none)) (fun _ => (false, none)) : OK Nat Nat)
        (fun _ => (false, some (GoError.other 2)))).verify 0
      = (false, some (GoError.other 2)) :=
  (verify_allow_layering Nat Nat
      (OK.mk true (fun _ => (false, none)) (fun _ => (false, none)))
      (fun _ => (false, some (GoError.other 2)))
      (fun _ => (false, none)) 0 0).2.2.1 rfl (by decide) rfl

/-- C9: each combinator changes only its matching operation — `Validate`
leaves `Verify` and `Allows` exactly the inner grant's, `Verify` leaves
`Valid` and `Allows`, and `Allow` leaves `Valid` and `Verify` (Go struct
embedding delegates the non-overridden methods unchanged). -/
theorem combinator_frame (Ctx Res : Type) (g : OK Ctx Res) (p : Bool)
    (f : Ctx → Bool × Option GoError) (a : Res → Bool × Option GoError) :
    (Validate g p).verify = g.verify ∧ (Validate g p).allows = g.allows ∧
    (Verify g f).valid = g.valid ∧ (Verify g f).allows = g.allows ∧
    (Allow g a).valid = g.valid ∧ (Allow g a).verify = g.verify :=
  ⟨rfl, rfl, rfl, rfl, rfl, rfl⟩

/-- C5: the grant built by `Validate g p` has `Valid() = p && g.Valid()`;
when the attached predicate reports false the result is false whatever the
inner grant reports (the inner chain is not consulted); and a stack of n
validity combinators is valid exactly when all n attached predicates and
the base grant's own validity hold. -/
theorem validate_conjunction (Ctx Res : Type) (g g1 g2 : OK Ctx Res)
    (p : Bool) (ps : List Bool) :
    (Validate g p).valid = (p && g.valid) ∧
    (Validate g1 false).valid = false ∧
    (Validate g2 false).valid = false ∧
    (stackValidate g ps).valid = (ps.all (fun b => b) && g.valid) := by
  refine ⟨rfl, rfl, rfl, ?_⟩
  induction ps with
  | nil => simp [stackValidate]
  | cons q qs ih => simp [stackValidate, Validate, ih, Bool.and_assoc]

/-- C6: over an always-valid inner grant, the grant returned by
`WithCancel` is valid while the shared cell still holds its initial value,
invalid at every instant after the cancel handle has run at least once
(any number `n + 1` of invocations, from any cell state), and the handle
is idempotent — a second invocation does not change the cell. -/
theorem withCancel_monotone (Ctx Res : Type) (g : OK Ctx Res)
    (hg : g.valid = true) :
    (WithCancelAt g cancelCellInit).valid = true ∧
    (∀ s n : Nat, (WithCancelAt g (cancelFunc^[n + 1] s)).valid = false) ∧
    (∀ s : Nat, cancelFunc (cancelFunc s) = cancelFunc s) := by
  refine ⟨by simp [WithCancelAt, Validate, cancelCellInit, hg], ?_, fun s => rfl⟩
  intro s n
  rw [cancelFunc_iterate]
  simp [WithCancelAt, Validate]

/-- Witness for withCancel_monotone: the base grant wrapped by
`WithCancel` is valid before, and invalid after, one invocation of the
handle. -/
theorem withCancel_monotone_witness :
    (WithCancelAt (New Nat Nat) cancelCellInit).valid = true ∧
    (WithCancelAt (New Nat Nat) (cancelFunc^[1] 0)).valid = false :=
  ⟨(withCancel_monotone Nat Nat (New Nat Nat) rfl).1,
   (withCancel_monotone Nat Nat (New Nat Nat) rfl).2.1 0 0⟩

/-- C7: over an always-valid inner grant, the grant returned by
`WithDeadline .. deadline` is valid at every sampled time strictly before
the deadline and invalid at every sampled time at or after it; and the
grant returned by `WithTimeout .. timeout` when the clock read `t0` at
construction coincides, at every sampled time, with the grant returned by
`WithDeadline` at `t0 + timeout` — the expiry point is fixed at
construction. -/
theorem withDeadline_timeout (Ctx Res : Type) (g : OK Ctx Res)
    (hg : g.valid = true) :
    (∀ deadline t : Int, t < deadline →
      (WithDeadlineAt g deadline t).valid = true) ∧
    (∀ deadline t : Int, deadline ≤ t →
      (WithDeadlineAt g deadline t).valid = false) ∧
    (∀ timeout t0 t : Int,
      WithTimeoutAt g timeout t0 t = WithDeadlineAt g (t0 + timeout) t) := by
  refine ⟨?_, ?_, fun timeout t0 t => rfl⟩
  · intro D t h
    simp [WithDeadlineAt, Validate, hg, h]
  · intro D t h
    have hn : ¬ t < D := not_lt.mpr h
    simp [WithDeadlineAt, Validate, hn]

/-- Witness for withDeadline_timeout, mirroring the repository's deadline
and timeout tests: deadline 10005 sampled at 10000 and 10010, and timeout
5 constructed at 10000. -/
theorem withDeadline_timeout_witness :
    (WithDeadlineAt (New Nat Nat) 10005 10000).valid = true ∧
    (WithDeadlineAt (New Nat Nat) 10005 10010).valid = false ∧
    WithTimeoutAt (New Nat Nat) 5 10000 10010
      = WithDeadlineAt (New Nat Nat) (10000 + 5) 10010 :=
  ⟨(withDeadline_timeout Nat Nat (New Nat Nat) rfl).1 10005 10000 (by decide),
   (withDeadline_timeout Nat Nat (New Nat Nat) rfl).2.1 10005 10010 (by decide),
   (withDeadline_timeout Nat Nat (New Nat Nat) rfl).2.2 5 10000 10010⟩

/-- C10 counterexample: when the attached function reports `(false, nil)`
the `Verify` combinator passes the inner grant's pair through unchanged,
so over an inner grant whose `Verify` reports `(true, non-nil)` the
wrapper also returns ok = true together with a non-nil error. -/
theorem wrapper_invariant_cex :
    (Verify
        (OK.mk true (fun _ => (true, some (GoError.other 3)))
          (fun _ => (false, none)) : OK Nat Nat)
        (fun _ => (false, none))).verify 0
      = (true, some (GoError.other 3)) := rfl

/-- C10 amended: whenever the attached function reports true — even paired
with a non-nil error — the wrapper returns exactly `(true, nil)`,
discarding the error; and provided the inner grant's corresponding
operation respects the invariant that a true decision carries a nil error,
the wrapped operation respects it too, regardless of the attached
function. -/
theorem wrapper_invariant_amended (Ctx Res : Type) (g : OK Ctx Res)
    (f : Ctx → Bool × Option GoError) (a : Res → Bool × Option GoError)
    (ctx : Ctx) (resource : Res) :
    ((f ctx).1 = true → (Verify g f).verify ctx = (true, none)) ∧
    (((g.verify ctx).1 = true → (g.verify ctx).2 = none) →
      ((Verify g f).verify ctx).1 = true →
      ((Verify g f).verify ctx).2 = none) ∧
    ((a resource).1 = true → (Allow g a).allows resource = (true, none)) ∧
    (((g.allows resource).1 = true → (g.allows resource).2 = none) →
      ((Allow g a).allows resource).1 = true →
      ((Allow g a).allows resource).2 = none) := by
  rcases hf : f ctx with ⟨fk, fe⟩
  rcases ha : a resource with ⟨ak, ae⟩
  refine ⟨?_, ?_, ?_, ?_⟩
  · intro h
    simp at h
    simp [Okay.Verify, hf, h]
  · intro hinv
    cases fk
    · cases fe with
      | none =>
        have hres : (Verify g f).verify ctx = g.verify ctx := by
          simp [Okay.Verify, hf]
        rw [hres]; exact hinv
      | some e =>
        cases hk : (g.verify ctx).1 <;>
          simp [Okay.Verify, hf, hk]
    · simp [Okay.Verify, hf]
  · intro h
    simp at h
    simp [Okay.Allow, ha, h]
  · intro hinv
    cases ak
    · cases ae with
      | none =>
        have hres : (Allow g a).allows resource = g.allows resource := by
          simp [Okay.Allow, ha]
        rw [hres]; exact hinv
      | some e =>
        cases hk : (g.allows resource).1 <;>
          simp [Okay.Allow, ha, hk]
    · simp [Okay.Allow, ha]

/-- Witness for wrapper_invariant_amended: an attached function that pairs
a true decision with a non-nil error still yields exactly `(true, nil)`
from the wrapper. -/
theorem wrapper_invariant_amended_witness :
    (Verify (New Nat Nat) (fun _ => (true, some (GoError.other 4)))).verify 0
      = (true, none) :=
  (wrapper_invariant_amended Nat Nat (New Nat Nat)
      (fun _ => (true, some (GoError.other 4)))
      (fun _ => (false, none)) 0 0).1 rfl

end Okay
